import Mathlib

/-!
# Verification of the active-workout session engine of `script.js`

This file gives a shallow embedding, in Lean 4, of the session / rest-timer /
history logic of the fitness-tracking client (`src/script.js`, newer variant:
lines 59–1172 and the catalog/builder helpers it relies on), and proves the
frozen claims about it.

Modelling conventions:
* JavaScript strings are `String`; the JS truthiness test on a string is
  `s ≠ ""`.
* Optional ("possibly `undefined`/`null`") numeric fields are `Option Nat`;
  the JS truthiness test on such a field holds exactly for `some n` with
  `n ≠ 0` (both `undefined`/`null` and `0` are falsy).
* Timestamps (`Date.now()`, `new Date(...).getTime()`) are `Nat` milliseconds;
  ISO-8601 date strings are represented by their timestamp, which is
  order-isomorphic to the lexicographic order on the strings the code stores.
* Catalog rest times are `Nat`: every catalog entry this code can create
  carries a numeric `restTime` (the seeded defaults are the literals
  60–180 at `script.js:271-353`, and `saveExercise` at `script.js:1813`
  stores `parseInt(...) || 90`), so `parseInt(ex.restTime)` is the identity.
* The browser interval machinery (`setInterval`/`clearInterval`) is modelled
  by an explicit table of live interval handles, so that leaked countdown
  tasks are observable.
* Functions that the UI can only invoke in states where their array/object
  accesses succeed are embedded with an `Option`-guard returning the input
  unchanged on the (UI-unreachable) failing branch; every theorem about such
  a function carries the corresponding well-formedness hypotheses.
-/

/-- JS `a || b` for strings: `b` when `a` is falsy (empty). For strings this
is the identity when `a ≠ ""` and `b` when `a = ""`. -/
def jsOrStr (a b : String) : String :=
  if a = "" then b else a

/-- JS `a || b` where `a` is a possibly-undefined number (`Option Nat`) and
`b` a number: falsy means `undefined`/`null` or `0`. -/
def jsOrNat (a : Option Nat) (b : Nat) : Nat :=
  match a with
  | some n => if n = 0 then b else n
  | none => b

/-- JS `a || null` for a possibly-undefined numeric id: normalises both
`undefined` and `0` to `null`. Embeds `state.activeWorkout.programId || null`
(`script.js:1155`). -/
def jsOrNull (a : Option Nat) : Option Nat :=
  match a with
  | some n => if n = 0 then none else some n
  | none => none

/-- JS truthiness of a possibly-undefined numeric field
(`if (state.activeWorkout.historyId)`, `script.js:1145`). -/
def jsTruthyNat (a : Option Nat) : Bool :=
  match a with
  | some n => n ≠ 0
  | none => false

-- ## Data model (shapes of the records `script.js` builds)

/-- A catalog exercise (`state.exercises` entries, `script.js:271-353`,
`saveExercise` at `script.js:1820-1825`). `restTime` is always numeric in
this code (see the module comment). -/
structure Exercise where
  id : Nat
  name : String
  category : String
  restTime : Nat
  deriving Repr, DecidableEq

/-- One logged set of an active session
(`{weight, targetReps, reps, completed}`, `script.js:880-885`). -/
structure SetLog where
  weight : String
  targetReps : String
  reps : String
  completed : Bool
  deriving Repr, DecidableEq

/-- One exercise of an active session (`script.js:877-886`). `restTime` is
`none` on session exercises cloned from a history record
(`editHistoryWorkout`, `script.js:636`), which carry no `restTime` field. -/
structure SessionExercise where
  exerciseId : Nat
  restTime : Option Nat
  sets : List SetLog
  deriving Repr, DecidableEq

/-- One exercise entry of a finished record: `finishWorkout` keeps only
`exerciseId` and the filtered `sets` (`script.js:1135-1138`). -/
structure HistoryExercise where
  exerciseId : Nat
  sets : List SetLog
  deriving Repr, DecidableEq

/-- A history record (`script.js:1152-1161`). `date` is the creation
timestamp of the ISO string stored by the code. -/
structure HistoryRecord where
  id : Nat
  date : Nat
  programId : Option Nat
  workoutIndex : Option Nat
  week : Nat
  name : String
  exercises : List HistoryExercise
  notes : String
  deriving Repr, DecidableEq

/-- The active workout (`state.activeWorkout`). `historyId` is set only on
sessions created by `editHistoryWorkout`; `recId`/`recDate` model the inert
`id`/`date` fields such a deep-cloned session carries (`script.js:636-637`,
never read by the engine). The `type` tag is kept for fidelity but never
consulted by `finishWorkout`. -/
structure Workout where
  type : String
  programId : Option Nat
  workoutIndex : Option Nat
  week : Option Nat
  name : String
  exercises : List SessionExercise
  notes : String
  historyId : Option Nat
  recId : Option Nat
  recDate : Option Nat
  deriving Repr, DecidableEq

/-- A target-set entry of a workout template (`{reps}` objects pushed by
`addBuilderSet`, `script.js:1469-1475`). -/
structure TemplateSet where
  reps : String
  deriving Repr, DecidableEq

/-- An exercise entry of a workout template (`selectExercise` for the
builder, `script.js:1585-1589`; `restTime` may be rewritten by
`updateBuilderExerciseRest`, `script.js:1397`, and is `Option` because
`startProgramWorkout` tests it with `!== undefined`). `sets` is `Option`
because `startProgramWorkout` guards it with `Array.isArray`
(`script.js:880`). -/
structure TemplateEntry where
  exerciseId : Nat
  restTime : Option Nat
  sets : Option (List TemplateSet)
  deriving Repr, DecidableEq

/-- A workout template, embedded in a program or standalone (`id` is `none`
for program-embedded templates). -/
structure WorkoutTemplate where
  id : Option Nat
  name : String
  exercises : List TemplateEntry
  deriving Repr, DecidableEq

/-- A program (`script.js:1184-1189`). -/
structure Program where
  id : Nat
  name : String
  weeks : Nat
  workouts : List WorkoutTemplate
  deriving Repr, DecidableEq

-- ## Rest timer (`script.js:160-221`), with an explicit interval table

/-- The module-level rest-timer globals of `script.js:161-163` together with
an explicit model of the browser's interval table: `live` is the list of
interval handles currently scheduled, `nextHandle` the allocator. -/
structure TimerSys where
  nextHandle : Nat
  live : List Nat
  restTimerInterval : Option Nat
  restTimerRemaining : Int
  restTimerTotal : Int
  deriving Repr, DecidableEq

/-- The idle timer world: no interval scheduled. -/
def TimerSys.idle : TimerSys :=
  { nextHandle := 0, live := [], restTimerInterval := none
    restTimerRemaining := 0, restTimerTotal := 0 }

/-- `setInterval(tick, 1000)`: allocates a fresh handle and schedules it. -/
def setIntervalJS (ts : TimerSys) : Nat × TimerSys :=
  (ts.nextHandle,
   { ts with nextHandle := ts.nextHandle + 1, live := ts.live ++ [ts.nextHandle] })

/-- `clearInterval(h)`: unschedules `h`; a no-op on `null`. -/
def clearIntervalJS (h : Option Nat) (ts : TimerSys) : TimerSys :=
  match h with
  | none => ts
  | some h0 => { ts with live := ts.live.filter (fun x => x ≠ h0) }

/-- `startRestTimer(duration, exerciseName)` (`script.js:170-175`).
Note: the source sets `restTimerInterval = setInterval(...)` WITHOUT first
calling `clearInterval` on the previous handle, so a previously scheduled
countdown stays in `live`. -/
def startRestTimer (duration : Int) (ts : TimerSys) : TimerSys :=
  let ts1 := { ts with restTimerTotal := duration, restTimerRemaining := duration }
  let p := setIntervalJS ts1
  { p.2 with restTimerInterval := some p.1 }

/-- `skipRestTimer()` (`script.js:210-215`): clears the current handle. -/
def skipRestTimer (ts : TimerSys) : TimerSys :=
  let ts1 := clearIntervalJS ts.restTimerInterval ts
  { ts1 with restTimerInterval := none }

/-- `adjustRestTimer(delta)` (`script.js:217-221`). -/
def adjustRestTimer (delta : Int) (ts : TimerSys) : TimerSys :=
  let r := max 1 (ts.restTimerRemaining + delta)
  { ts with restTimerRemaining := r, restTimerTotal := max ts.restTimerTotal r }

-- ## Catalog lookup (`script.js:165-168`)

/-- `getRestTimeForExercise(exerciseId)` (`script.js:165-168`):
`(ex && ex.restTime) ? parseInt(ex.restTime) : 90`. With numeric catalog
rest times, truthiness of `ex.restTime` is `≠ 0` and `parseInt` is the
identity. -/
def getRestTimeForExercise (catalog : List Exercise) (exerciseId : Nat) : Nat :=
  match catalog.find? (fun e => e.id = exerciseId) with
  | some e => if e.restTime ≠ 0 then e.restTime else 90
  | none => 90

-- ## Session materialization (`script.js:869-934`)

/-- The per-entry materialization step shared by `startProgramWorkout`
(`script.js:877-886`) and `startStandaloneWorkout` (`script.js:913-922`):
`restTime: ex.restTime !== undefined ? ex.restTime : getRestTimeForExercise(..)`,
and each target set becomes `{weight:'', targetReps: s.reps || '', reps:'',
completed:false}`; a missing `sets` array yields `[]`. -/
def materializeEntry (catalog : List Exercise) (ex : TemplateEntry) : SessionExercise :=
  { exerciseId := ex.exerciseId
    restTime := some (match ex.restTime with
      | some r => r
      | none => getRestTimeForExercise catalog ex.exerciseId)
    sets := match ex.sets with
      | some ss => ss.map (fun s =>
          { weight := "", targetReps := jsOrStr s.reps "", reps := "", completed := false })
      | none => [] }

/-- The whole application state the session engine touches
(`state` at `script.js:113-126`, restricted to the fields the claims need). -/
structure AppState where
  exercises : List Exercise
  programs : List Program
  standaloneWorkouts : List WorkoutTemplate
  currentWeek : Nat
  workoutHistory : List HistoryRecord
  activeWorkout : Option Workout
  deriving Repr, DecidableEq

/-- `startProgramWorkout(programId, index)` (`script.js:869-903`).
`confirmDiscard` models the user's answer to the `confirm(...)` prompt when a
workout is already in progress. A missing program or out-of-range index makes
the source throw before mutating `state`; that branch is embedded as the
unchanged state. -/
def startProgramWorkout (confirmDiscard : Bool) (programId idx : Nat)
    (s : AppState) : AppState :=
  if s.activeWorkout.isSome && !confirmDiscard then s
  else
    match s.programs.find? (fun p => p.id = programId) with
    | none => s
    | some program =>
      match program.workouts[idx]? with
      | none => s
      | some template =>
        let w : Workout :=
          { type := "program"
            programId := some program.id
            workoutIndex := some idx
            week := some (jsOrNat (some s.currentWeek) 1)
            name := template.name
            exercises := template.exercises.map (materializeEntry s.exercises)
            notes := ""
            historyId := none, recId := none, recDate := none }
        { s with activeWorkout := some w }

/-- `startStandaloneWorkout(id)` (`script.js:905-934`). -/
def startStandaloneWorkout (confirmDiscard : Bool) (id : Nat)
    (s : AppState) : AppState :=
  if s.activeWorkout.isSome && !confirmDiscard then s
  else
    match s.standaloneWorkouts.find? (fun w => w.id = some id) with
    | none => s
    | some template =>
      let w : Workout :=
        { type := "standalone"
          programId := none
          workoutIndex := none
          week := none
          name := template.name
          exercises := template.exercises.map (materializeEntry s.exercises)
          notes := ""
          historyId := none, recId := none, recDate := none }
      { s with activeWorkout := some w }

-- ## History: resume-for-editing (`script.js:632-642`)

/-- `editHistoryWorkout(id)` (`script.js:632-642`): deep-clones the record
into `state.activeWorkout` and tags it with `historyId = id`. The cloned
exercises carry no `restTime` and the cloned workout no `type`,
`programId`-truthiness normalisation etc.; fields the clone does have are
copied verbatim. A missing record returns unchanged. -/
def editHistoryWorkout (id : Nat) (s : AppState) : AppState :=
  match s.workoutHistory.find? (fun w => w.id = id) with
  | none => s
  | some record =>
    let w : Workout :=
      { type := ""
        programId := record.programId
        workoutIndex := record.workoutIndex
        week := some record.week
        name := record.name
        exercises := record.exercises.map (fun e =>
          { exerciseId := e.exerciseId, restTime := none, sets := e.sets })
        notes := record.notes
        historyId := some id
        recId := some record.id
        recDate := some record.date }
    { s with activeWorkout := some w }

/-- `deleteHistoryWorkout(id)` with the confirmation accepted
(`script.js:624-630`). -/
def deleteHistoryWorkout (id : Nat) (s : AppState) : AppState :=
  { s with workoutHistory := s.workoutHistory.filter (fun w => w.id ≠ id) }

-- ## finishWorkout (`script.js:1134-1172`)

/-- The set filter of `finishWorkout` (`script.js:1137`):
`s.completed || (s.weight && s.reps)` — string truthiness is non-emptiness. -/
def qualifies (s : SetLog) : Bool :=
  s.completed || (s.weight ≠ "" && s.reps ≠ "")

/-- `completedExercises` (`script.js:1135-1138`): map each session exercise
to `{exerciseId, sets: sets.filter(qualifies)}`, then drop those left with
zero sets. -/
def completedExercisesOf (exs : List SessionExercise) : List HistoryExercise :=
  (exs.map (fun ex =>
    ({ exerciseId := ex.exerciseId, sets := ex.sets.filter qualifies } : HistoryExercise))).filter
    (fun ex => ex.sets.length ≠ 0)

/-- The single error the finish path can signal (`script.js:1140-1143`). -/
inductive FinishError where
  | emptySession
  deriving Repr, DecidableEq

/-- In-place overwrite of the first record with the given id
(`state.workoutHistory[index].exercises = ...; ... .notes = ...` after
`findIndex`, `script.js:1146-1150`); unchanged when `findIndex` gives `-1`. -/
def overwriteFirst (id : Nat) (exs : List HistoryExercise) (notes : String) :
    List HistoryRecord → List HistoryRecord
  | [] => []
  | r :: rs =>
    if r.id = id then { r with exercises := exs, notes := notes } :: rs
    else r :: overwriteFirst id exs notes rs

/-- `finishWorkout()` (`script.js:1134-1172`), embedded as a function of the
open workout `w` (the source reads `state.activeWorkout`, which the UI
guarantees non-null here) and the history list. `nowId` is `Date.now()` and
`nowDate` the timestamp of `new Date().toISOString()`. Returns the signalled
error (if any), the new `state.activeWorkout` and the new
`state.workoutHistory`. -/
def finishWorkout (nowId nowDate : Nat) (w : Workout)
    (hist : List HistoryRecord) :
    Option FinishError × Option Workout × List HistoryRecord :=
  let ce := completedExercisesOf w.exercises
  if ce.length = 0 then (some .emptySession, some w, hist)
  else
    if jsTruthyNat w.historyId then
      (none, none,
       overwriteFirst (w.historyId.getD 0) ce (jsOrStr w.notes "") hist)
    else
      (none, none, hist ++
        [{ id := nowId
           date := nowDate
           programId := jsOrNull w.programId
           workoutIndex := w.workoutIndex
           week := jsOrNat w.week 1
           name := w.name
           exercises := ce
           notes := jsOrStr w.notes "" }])

/-- `finishWorkout` lifted to `AppState` (null active workout is
UI-unreachable; embedded as unchanged). -/
def finishWorkoutState (nowId nowDate : Nat) (s : AppState) :
    Option FinishError × AppState :=
  match s.activeWorkout with
  | none => (none, s)
  | some w =>
    let r := finishWorkout nowId nowDate w s.workoutHistory
    (r.1, { s with activeWorkout := r.2.1, workoutHistory := r.2.2 })

-- ## In-session mutations (`script.js:1081-1114`)

/-- The two set fields `updateActiveSet` is called with
(`script.js:1062-1064`). -/
inductive SetField where
  | weight
  | reps
  deriving Repr, DecidableEq

/-- `set[field] = value` for the two fields the UI passes. -/
def SetLog.setField (st : SetLog) (f : SetField) (v : String) : SetLog :=
  match f with
  | .weight => { st with weight := v }
  | .reps => { st with reps := v }

/-- `updateActiveSet(exIndex, setIndex, field, value)` (`script.js:1081-1084`),
on the open workout; out-of-range indices make the source throw before any
mutation, embedded as the unchanged workout. -/
def updateActiveSet (exIndex setIndex : Nat) (f : SetField) (v : String)
    (w : Workout) : Workout :=
  match w.exercises[exIndex]? with
  | none => w
  | some ex =>
    match ex.sets[setIndex]? with
    | none => w
    | some st =>
      { w with exercises :=
          w.exercises.set exIndex { ex with sets := ex.sets.set setIndex (st.setField f v) } }

/-- `addSetToActive(exIndex)` (`script.js:1104-1114`): pushes a set seeded
with the previous (last) set's `weight`/`targetReps` (or empty when there is
no previous set), `reps` empty, `completed` false. -/
def addSetToActive (exIndex : Nat) (w : Workout) : Workout :=
  match w.exercises[exIndex]? with
  | none => w
  | some ex =>
    let newSet : SetLog :=
      match ex.sets.getLast? with
      | some prev =>
        { weight := prev.weight, reps := "", targetReps := prev.targetReps, completed := false }
      | none => { weight := "", reps := "", targetReps := "", completed := false }
    { w with exercises := w.exercises.set exIndex { ex with sets := ex.sets ++ [newSet] } }

/-- The rest-duration resolution `exercise.restTime !== undefined ?
exercise.restTime : (exerciseData ? exerciseData.restTime : 90)` used by
`toggleSetComplete` (`script.js:1098`) and the active-exercise renderer
(`script.js:1023`): the session exercise's own rest seconds when present,
else the catalog default for that exercise, else 90. -/
def resolvedRestSeconds (catalog : List Exercise) (ex : SessionExercise) : Int :=
  match ex.restTime with
  | some d => (d : Int)
  | none =>
    match catalog.find? (fun e => e.id = ex.exerciseId) with
    | some e => (e.restTime : Int)
    | none => 90

/-- `toggleSetComplete(exIndex, setIndex)` (`script.js:1086-1102`): flips
`completed`; on the false→true transition resolves the rest duration
(the ternary at `script.js:1098`, factored here as `resolvedRestSeconds`)
and calls `startRestTimer`; the true→false transition does not touch the
timer. -/
def toggleSetComplete (catalog : List Exercise) (exIndex setIndex : Nat)
    (w : Workout) (ts : TimerSys) : Workout × TimerSys :=
  match w.exercises[exIndex]? with
  | none => (w, ts)
  | some ex =>
    match ex.sets[setIndex]? with
    | none => (w, ts)
    | some st =>
      let wasCompleted := st.completed
      let st' := { st with completed := !st.completed }
      let ex' := { ex with sets := ex.sets.set setIndex st' }
      let w' := { w with exercises := w.exercises.set exIndex ex' }
      if !wasCompleted && st'.completed then
        (w', startRestTimer (resolvedRestSeconds catalog ex) ts)
      else (w', ts)

-- ## Last-performance lookup (`script.js:972-994`)

/-- The fragment of JS `Number(...)` reachable from this code's weight
fields, which pass through `enforceNumeric(input, true)` (`script.js:91-97`:
digits and at most one decimal point): the empty string is `0`, a digit
string with at most one `'.'` and at least one digit is its decimal value,
anything else is `NaN` (`none`). -/
def jsNumber (s : String) : Option ℚ :=
  if s = "" then some 0
  else
    let cs := s.toList
    if cs.all (fun c => c.isDigit || c = '.') && cs.count '.' ≤ 1 &&
        cs.any (fun c => c.isDigit) then
      let intDigits := cs.takeWhile (fun c => c ≠ '.')
      let fracDigits := (cs.dropWhile (fun c => c ≠ '.')).drop 1
      let intPart := intDigits.foldl (fun n c => n * 10 + (c.toNat - 48)) (0 : Nat)
      let fracVal := fracDigits.foldl (fun n c => n * 10 + (c.toNat - 48)) (0 : Nat)
      some ((intPart : ℚ) + (fracVal : ℚ) / (10 : ℚ) ^ fracDigits.length)
    else none

/-- JS `Number(a) > Number(b)`: `false` whenever either side is `NaN`. -/
def jsNumGt (a b : String) : Bool :=
  match jsNumber a, jsNumber b with
  | some x, some y => decide (y < x)
  | _, _ => false

/-- The `reduce` of `script.js:988`: fold over the whole `sets` array with
`sets[0]` as initial accumulator, replacing the best on a strict
`Number(curr.weight) > Number(max.weight)`. `none` only for an empty `sets`
array, where the source would fault on `bestSet.weight` (no record written
by `finishWorkout` has an exercise with zero sets). -/
def bestSetOf (sets : List SetLog) : Option SetLog :=
  match sets with
  | [] => none
  | s0 :: _ =>
    some (sets.foldl (fun mx cur => if jsNumGt cur.weight mx.weight then cur else mx) s0)

/-- The `matches` array of `script.js:973-982`: for each history record (in
ledger order) that contains an exercise entry with the given id, the pair of
its date and the FIRST such entry's sets. -/
def exerciseMatches (hist : List HistoryRecord) (exerciseId : Nat) :
    List (Nat × List SetLog) :=
  hist.filterMap (fun wk =>
    (wk.exercises.find? (fun e => e.exerciseId = exerciseId)).map
      (fun ex => (wk.date, ex.sets)))

/-- `matches.sort((a, b) => new Date(b.date) - new Date(a.date))[0]`
(`script.js:986-987`). JS `Array.prototype.sort` is stable, so the head of
the descending-by-date sort is the first match attaining the maximal date;
this fold computes exactly that element. -/
def mostRecent (ms : List (Nat × List SetLog)) : Option (Nat × List SetLog) :=
  ms.foldl (fun acc x =>
    match acc with
    | none => some x
    | some m => if x.1 > m.1 then some x else acc) none

/-- `getLastExercisePerformance(exerciseId)` (`script.js:972-994`): `null`
when no record contains the exercise, else the `{weight, reps}` of the best
set of the most recent matching record. -/
def getLastExercisePerformance (hist : List HistoryRecord) (exerciseId : Nat) :
    Option (String × String) :=
  match mostRecent (exerciseMatches hist exerciseId) with
  | none => none
  | some m =>
    match bestSetOf m.2 with
    | none => none
    | some bs => some (bs.weight, bs.reps)


theorem jsOrStr_empty (a : String) : jsOrStr a "" = a := by
  unfold jsOrStr
  split
  · next h => exact h.symm
  · rfl

theorem filter_length_ne_zero_iff_any {α : Type} (l : List α) (q : α → Bool) :
    ((l.filter q).length ≠ 0) ↔ l.any q = true := by
  rw [ne_eq, List.length_eq_zero, List.filter_eq_nil_iff, List.any_eq_true]
  push_neg
  simp

theorem completedExercisesOf_eq (exs : List SessionExercise) :
    completedExercisesOf exs =
      (exs.filter (fun ex => ex.sets.any qualifies)).map
        (fun ex => ({ exerciseId := ex.exerciseId, sets := ex.sets.filter qualifies } : HistoryExercise)) := by
  unfold completedExercisesOf
  rw [List.filter_map]
  congr 1
  apply List.filter_congr
  intro ex _
  simp only [Function.comp]
  by_cases h : ex.sets.any qualifies = true
  · simp [h, (filter_length_ne_zero_iff_any ex.sets qualifies).mpr h]
  · have h2 : ¬ ((ex.sets.filter qualifies).length ≠ 0) := by
      rw [filter_length_ne_zero_iff_any]; exact h
    rw [decide_eq_false h2]
    exact ((Bool.not_eq_true _).mp h).symm

theorem overwriteFirst_not_found (id : Nat) (exs : List HistoryExercise)
    (notes : String) (hist : List HistoryRecord)
    (h : ∀ r ∈ hist, r.id ≠ id) :
    overwriteFirst id exs notes hist = hist := by
  induction hist with
  | nil => rfl
  | cons r rest ih =>
    unfold overwriteFirst
    rw [if_neg (h r (List.mem_cons_self r rest))]
    exact congrArg _ (ih (fun r' hr' => h r' (List.mem_cons_of_mem r hr')))

theorem adjustRestTimer_spec :
    (∀ (ts : TimerSys) (delta : Int),
      (adjustRestTimer delta ts).restTimerRemaining =
        max 1 (ts.restTimerRemaining + delta) ∧
      (adjustRestTimer delta ts).restTimerTotal =
        max ts.restTimerTotal (adjustRestTimer delta ts).restTimerRemaining) ∧
    (∀ (ts : TimerSys) (delta : Int),
      1 ≤ (adjustRestTimer delta ts).restTimerRemaining) ∧
    (∀ (ts : TimerSys) (deltas : List Int),
      ts.restTimerTotal ≤
        (deltas.foldl (fun t d => adjustRestTimer d t) ts).restTimerTotal) := by
  refine ⟨fun ts delta => ⟨rfl, rfl⟩, fun ts delta => le_max_left _ _, fun ts deltas => ?_⟩
  induction deltas generalizing ts with
  | nil => exact le_refl _
  | cons d ds ih =>
    simp only [List.foldl_cons]
    exact le_trans (le_max_left _ _) (ih (adjustRestTimer d ts))

theorem startRestTimer_leaks_previous_interval :
    (startRestTimer 120 TimerSys.idle).live = [0] ∧
    (startRestTimer 120 TimerSys.idle).restTimerInterval = some 0 ∧
    (startRestTimer 90 (startRestTimer 120 TimerSys.idle)).live = [0, 1] ∧
    (startRestTimer 90 (startRestTimer 120 TimerSys.idle)).restTimerInterval = some 1 ∧
    0 ∈ (startRestTimer 90 (startRestTimer 120 TimerSys.idle)).live := by
  refine ⟨rfl, rfl, rfl, rfl, ?_⟩
  simp [startRestTimer, setIntervalJS, TimerSys.idle]

/-- Claim C2: if no set of the active session is completed and no set has
both weight and reps non-empty, `finishWorkout` signals `EmptySession` and
is atomic: the active session is kept intact and the history ledger is
unchanged, so the user can keep logging. -/
theorem finishWorkout_emptySession_atomic
    (nowId nowDate : Nat) (w : Workout) (hist : List HistoryRecord)
    (h : ∀ ex ∈ w.exercises, ∀ st ∈ ex.sets,
      st.completed = false ∧ (st.weight = "" ∨ st.reps = "")) :
    finishWorkout nowId nowDate w hist =
      (some FinishError.emptySession, some w, hist) := by
  have hce : completedExercisesOf w.exercises = [] := by
    rw [completedExercisesOf_eq]
    have hf : w.exercises.filter (fun ex => ex.sets.any qualifies) = [] := by
      rw [List.filter_eq_nil_iff]
      intro ex hex
      simp only [List.any_eq_true, not_exists]
      push_neg
      intro st hst
      rcases h ex hex st hst with ⟨hc, hwr⟩
      unfold qualifies
      rcases hwr with hw0 | hr0
      · simp [hc, hw0]
      · simp [hc, hr0]
    rw [hf]
    rfl
  unfold finishWorkout
  rw [hce]
  rfl

/-- A concrete session for the C2 witness: one exercise, one unfilled,
uncompleted set. -/
def emptyDemoWorkout : Workout :=
  { type := "program", programId := some 1, workoutIndex := some 0,
    week := some 1, name := "Push Day",
    exercises := [⟨1, some 120, [⟨"", "8-12", "10", false⟩]⟩],
    notes := "", historyId := none, recId := none, recDate := none }

theorem finishWorkout_emptySession_atomic_witness :
    finishWorkout 5 6 emptyDemoWorkout [] =
      (some FinishError.emptySession, some emptyDemoWorkout, []) :=
  finishWorkout_emptySession_atomic 5 6 emptyDemoWorkout []
    (by
      intro ex hex st hst
      simp only [emptyDemoWorkout, List.mem_singleton] at hex
      subst hex
      simp only [List.mem_singleton] at hst
      subst hst
      exact ⟨rfl, Or.inl rfl⟩)

theorem completedExercisesOf_ne_nil (exs : List SessionExercise) :
    completedExercisesOf exs ≠ [] ↔
      ∃ ex ∈ exs, ∃ st ∈ ex.sets, qualifies st = true := by
  rw [completedExercisesOf_eq, ne_eq, List.map_eq_nil_iff, List.filter_eq_nil_iff]
  push_neg
  constructor
  · rintro ⟨ex, hex, hany⟩
    rcases List.any_eq_true.mp (by simpa using hany) with ⟨st, hst, hq⟩
    exact ⟨ex, hex, st, hst, hq⟩
  · rintro ⟨ex, hex, st, hst, hq⟩
    exact ⟨ex, hex, by simpa using List.any_eq_true.mpr ⟨st, hst, hq⟩⟩

/-- Claim C10: if finish is called on a session with qualifying sets whose
`resumingHistoryId` matches no existing record (e.g. the record was deleted
after resuming), it signals no error, writes nothing — the ledger is
unchanged — and still clears the active session, silently losing the
logged data. -/
theorem finishWorkout_danglingHistoryId
    (nowId nowDate : Nat) (w : Workout) (hist : List HistoryRecord) (hid : Nat)
    (hh : w.historyId = some hid) (h0 : hid ≠ 0)
    (hq : ∃ ex ∈ w.exercises, ∃ st ∈ ex.sets, qualifies st = true)
    (habs : ∀ r ∈ hist, r.id ≠ hid) :
    finishWorkout nowId nowDate w hist = (none, none, hist) := by
  unfold finishWorkout
  have hne := (completedExercisesOf_ne_nil w.exercises).mpr hq
  have hlen : ¬(completedExercisesOf w.exercises).length = 0 := by
    simpa [List.length_eq_zero] using hne
  rw [if_neg hlen]
  have ht : jsTruthyNat w.historyId = true := by simp [jsTruthyNat, hh, h0]
  rw [if_pos ht, hh]
  simp only [Option.getD_some]
  rw [overwriteFirst_not_found _ _ _ _ habs]

/-- A session resuming history id 42 whose record has been deleted. -/
def danglingDemoWorkout : Workout :=
  { type := "", programId := none, workoutIndex := none, week := some 1,
    name := "A", exercises := [⟨1, none, [⟨"135", "", "10", true⟩]⟩],
    notes := "", historyId := some 42, recId := some 42, recDate := some 10 }

theorem finishWorkout_danglingHistoryId_witness :
    finishWorkout 7 8 danglingDemoWorkout [] = (none, none, []) :=
  finishWorkout_danglingHistoryId 7 8 danglingDemoWorkout [] 42 rfl
    (by decide)
    ⟨_, List.mem_singleton.mpr rfl, _, List.mem_singleton.mpr rfl, rfl⟩
    (fun r hr => absurd hr (List.not_mem_nil r))

theorem jsOrNull_eq_self (a : Option Nat) (h : a ≠ some 0) : jsOrNull a = a := by
  cases a with
  | none => rfl
  | some n =>
    have hn : n ≠ 0 := fun h0 => h (by rw [h0])
    simp [jsOrNull, hn]

/-- A small state whose only template is a standalone workout: one exercise
(catalog rest 120s, entry override 60s), one target set of "5" reps. -/
def soloDemoState : AppState :=
  ⟨[⟨1, "Barbell Bench Press", "Chest", 120⟩], [],
   [⟨some 9, "Solo Push", [⟨1, some 60, some [⟨"5"⟩]⟩]⟩], 1, [], none⟩

/-- The session `startStandaloneWorkout` creates from `soloDemoState`:
note it carries NO `week` field (`script.js:924-930`). -/
def soloSessionStart : Workout :=
  ⟨"standalone", none, none, none, "Solo Push",
   [⟨1, some 60, [⟨"", "5", "", false⟩]⟩], "", none, none, none⟩

/-- `soloSessionStart` after the user logs weight "135" and reps "10" into
its only set. -/
def soloSessionLogged : Workout :=
  ⟨"standalone", none, none, none, "Solo Push",
   [⟨1, some 60, [⟨"135", "5", "10", false⟩]⟩], "", none, none, none⟩

/-- Claim C1 counterexample: a reachable standalone session — produced by
`startStandaloneWorkout` and two `updateActiveSet` calls — has
`resumingHistoryId` unset and NO week field, yet its successful finish
writes `week = 1` into the appended record (`week: ... || 1`,
`script.js:1157`) instead of carrying the session's unset week, so the
record does not carry the session's week as the claim states. -/
theorem finishWorkout_newRecord_counterexample :
    (startStandaloneWorkout true 9 soloDemoState).activeWorkout = some soloSessionStart ∧
    updateActiveSet 0 0 SetField.reps "10"
      (updateActiveSet 0 0 SetField.weight "135" soloSessionStart) = soloSessionLogged ∧
    soloSessionLogged.historyId = none ∧
    soloSessionLogged.week = none ∧
    finishWorkout 1000 1001 soloSessionLogged [] =
      (none, none,
       [{ id := 1000, date := 1001, programId := none, workoutIndex := none,
          week := 1, name := "Solo Push",
          exercises := [⟨1, [⟨"135", "5", "10", false⟩]⟩], notes := "" }]) :=
  ⟨rfl, rfl, rfl, rfl, rfl⟩

/-- Claim C1 (amended): for a session whose `resumingHistoryId` is unset, a
successful finish appends exactly one new record, with the id and date
freshly taken from the clock at finish time, carrying the session's
programId, workoutIndex, name and notes, and with week equal to the
session's week when that field is set and non-zero, else 1 (`jsOrNat`); its
exercises are, in order, exactly the session exercises with at least one
qualifying set (completed, or both weight and reps non-empty), each
restricted to its qualifying sets in order, exercises with zero qualifying
sets dropped; and the active session is cleared. (The programId hypothesis
says that field is never the id 0, which holds for every session this code
creates: program ids are clock values.) -/
theorem finishWorkout_newRecord_amended
    (nowId nowDate : Nat) (w : Workout) (hist : List HistoryRecord)
    (hh : w.historyId = none)
    (hq : ∃ ex ∈ w.exercises, ∃ st ∈ ex.sets, qualifies st = true)
    (hp : w.programId ≠ some 0) :
    finishWorkout nowId nowDate w hist =
      (none, none, hist ++
        [{ id := nowId,
           date := nowDate,
           programId := w.programId,
           workoutIndex := w.workoutIndex,
           week := jsOrNat w.week 1,
           name := w.name,
           exercises := (w.exercises.filter (fun ex => ex.sets.any qualifies)).map
             (fun ex => ({ exerciseId := ex.exerciseId,
                           sets := ex.sets.filter qualifies } : HistoryExercise)),
           notes := w.notes }]) := by
  unfold finishWorkout
  have hne := (completedExercisesOf_ne_nil w.exercises).mpr hq
  have hlen : ¬(completedExercisesOf w.exercises).length = 0 := by
    simpa [List.length_eq_zero] using hne
  rw [if_neg hlen]
  have ht : jsTruthyNat w.historyId = false := by simp [jsTruthyNat, hh]
  rw [if_neg (by simp [ht])]
  have hrec : jsOrNull w.programId = w.programId := jsOrNull_eq_self _ hp
  rw [hrec, jsOrStr_empty, completedExercisesOf_eq]

/-- The spec's "Push Day" scenario session: one exercise, three sets, only
the first completed/filled. -/
def pushDayDemoWorkout : Workout :=
  { type := "program", programId := some 7, workoutIndex := some 0,
    week := some 2, name := "Push Day",
    exercises := [⟨1, some 120,
      [⟨"135", "8-12", "10", true⟩, ⟨"", "8-12", "", false⟩, ⟨"", "8-12", "", false⟩]⟩],
    notes := "", historyId := none, recId := none, recDate := none }

theorem finishWorkout_newRecord_amended_witness :
    finishWorkout 1000 1001 pushDayDemoWorkout [] =
      (none, none,
       [{ id := 1000, date := 1001, programId := some 7, workoutIndex := some 0,
          week := 2, name := "Push Day",
          exercises := [⟨1, [⟨"135", "8-12", "10", true⟩]⟩], notes := "" }]) := by
  rw [finishWorkout_newRecord_amended 1000 1001 pushDayDemoWorkout [] rfl
    ⟨_, List.mem_singleton.mpr rfl, _, List.mem_cons_self _ _, rfl⟩
    (by decide)]
  rfl

theorem find?_append_first (i : Nat) (pre post : List HistoryRecord)
    (r : HistoryRecord) (hr : r.id = i) (hpre : ∀ x ∈ pre, x.id ≠ i) :
    (pre ++ r :: post).find? (fun x => x.id = i) = some r := by
  induction pre with
  | nil =>
    simp only [List.nil_append]
    exact List.find?_cons_of_pos _ (by simp [hr])
  | cons a as ih =>
    simp only [List.cons_append]
    rw [List.find?_cons_of_neg _ (by simp [hpre a (List.mem_cons_self a as)])]
    exact ih (fun x hx => hpre x (List.mem_cons_of_mem a hx))

theorem overwriteFirst_append (i : Nat) (exs : List HistoryExercise)
    (notes : String) (pre post : List HistoryRecord) (r : HistoryRecord)
    (hr : r.id = i) (hpre : ∀ x ∈ pre, x.id ≠ i) :
    overwriteFirst i exs notes (pre ++ r :: post) =
      pre ++ ({ r with exercises := exs, notes := notes }) :: post := by
  induction pre with
  | nil =>
    simp only [List.nil_append]
    unfold overwriteFirst
    rw [if_pos hr]
  | cons a as ih =>
    simp only [List.cons_append]
    unfold overwriteFirst
    rw [if_neg (hpre a (List.mem_cons_self a as))]
    exact congrArg _ (ih (fun x hx => hpre x (List.mem_cons_of_mem a hx)))

theorem completedExercisesOf_mem (exs : List SessionExercise) :
    ∀ e ∈ completedExercisesOf exs,
      (∀ st ∈ e.sets, qualifies st = true) ∧ e.sets ≠ [] := by
  rw [completedExercisesOf_eq]
  intro e he
  rcases List.mem_map.mp he with ⟨ex, hex, rfl⟩
  refine ⟨fun st hst => (List.mem_filter.mp hst).2, ?_⟩
  have hany : ex.sets.any qualifies = true := by
    simpa using (List.mem_filter.mp hex).2
  rcases List.any_eq_true.mp hany with ⟨st, hst, hq⟩
  intro hnil
  have hmem : st ∈ ex.sets.filter qualifies := List.mem_filter.mpr ⟨hst, hq⟩
  simp only at hnil
  rw [hnil] at hmem
  exact absurd hmem (List.not_mem_nil st)

theorem completedExercisesOf_roundtrip (ce : List HistoryExercise)
    (h : ∀ e ∈ ce, (∀ st ∈ e.sets, qualifies st = true) ∧ e.sets ≠ []) :
    completedExercisesOf (ce.map (fun e =>
      ({ exerciseId := e.exerciseId, restTime := none, sets := e.sets } : SessionExercise))) = ce := by
  induction ce with
  | nil => rfl
  | cons e rest ih =>
    rcases h e (List.mem_cons_self e rest) with ⟨hall, hne⟩
    have hfe : e.sets.filter qualifies = e.sets := List.filter_eq_self.mpr hall
    have hrest := ih (fun x hx => h x (List.mem_cons_of_mem e hx))
    unfold completedExercisesOf at *
    simp only [List.map_cons, List.filter_cons]
    simp only [hfe]
    rw [if_pos (by simpa [List.length_eq_zero] using hne)]
    exact congrArg _ hrest

/-- Claim C3: for a session created by resuming an existing record
(`resumingHistoryId` = that record's id, ids unique in the ledger), a
successful finish overwrites only that record's exercises and notes in
place, preserving its original id and date and appending nothing; the
ledger then contains exactly one record with that id, and resuming the
updated record and finishing again with unchanged inputs leaves the ledger
identical. -/
theorem finishWorkout_resume_overwrites
    (nowId nowDate nowId2 nowDate2 : Nat) (w : Workout)
    (pre post : List HistoryRecord) (r r' : HistoryRecord) (s1 : AppState)
    (hw : w.historyId = some r.id) (hr0 : r.id ≠ 0)
    (hpre : ∀ x ∈ pre, x.id ≠ r.id) (hpost : ∀ x ∈ post, x.id ≠ r.id)
    (hq : ∃ ex ∈ w.exercises, ∃ st ∈ ex.sets, qualifies st = true)
    (hr' : r' = { r with exercises := completedExercisesOf w.exercises,
                         notes := jsOrStr w.notes "" })
    (hs1 : s1.workoutHistory = pre ++ r' :: post) :
    (finishWorkout nowId nowDate w (pre ++ r :: post) =
       (none, none, pre ++ r' :: post)) ∧
    (r'.id = r.id ∧ r'.date = r.date) ∧
    ((pre ++ r' :: post).filter (fun x => x.id = r.id) = [r']) ∧
    (finishWorkoutState nowId2 nowDate2 (editHistoryWorkout r.id s1) =
       (none, { s1 with activeWorkout := none })) := by
  have hne := (completedExercisesOf_ne_nil w.exercises).mpr hq
  have hlen : ¬(completedExercisesOf w.exercises).length = 0 := by
    simpa [List.length_eq_zero] using hne
  have hrid : r'.id = r.id := by rw [hr']
  refine ⟨?_, ⟨hrid, by rw [hr']⟩, ?_, ?_⟩
  · unfold finishWorkout
    rw [if_neg hlen]
    rw [if_pos (by simp [jsTruthyNat, hw, hr0])]
    rw [hw]
    simp only [Option.getD_some]
    rw [overwriteFirst_append r.id _ _ pre post r rfl hpre, ← hr']
  · rw [List.filter_append]
    rw [List.filter_eq_nil_iff.mpr (fun x hx => by simp [hpre x hx])]
    simp only [List.filter_cons, hrid, decide_eq_true_eq, List.nil_append]
    rw [if_pos trivial]
    rw [List.filter_eq_nil_iff.mpr (fun x hx => by simp [hpost x hx])]
  · obtain ⟨cat, progs, standW, cw, hist0, aw⟩ := s1
    simp only at hs1
    subst hs1
    unfold editHistoryWorkout
    simp only
    rw [find?_append_first r.id pre post r' hrid hpre]
    unfold finishWorkoutState
    simp only
    unfold finishWorkout
    have hround : completedExercisesOf ((r'.exercises).map (fun e =>
        ({ exerciseId := e.exerciseId, restTime := none, sets := e.sets } : SessionExercise))) =
        completedExercisesOf w.exercises := by
      rw [hr']
      exact completedExercisesOf_roundtrip _ (completedExercisesOf_mem w.exercises)
    simp only [hround]
    rw [if_neg hlen]
    rw [if_pos (by simp [jsTruthyNat, hr0])]
    simp only [Option.getD_some]
    have hnotes : jsOrStr r'.notes "" = r'.notes := jsOrStr_empty _
    rw [hnotes]
    rw [overwriteFirst_append r.id _ _ pre post r' hrid hpre]
    have hfix : ({ r' with
                   exercises := completedExercisesOf w.exercises,
                   notes := r'.notes } : HistoryRecord) = r' := by
      rw [hr']
    rw [hfix]

/-- C3 witness data: record id 42, resumed and re-finished with one rep
value changed from "10" to "12". -/
def resumeDemoRecord : HistoryRecord :=
  ⟨42, 500, some 7, some 0, 2, "Push Day", [⟨1, [⟨"135", "8-12", "10", true⟩]⟩], "old"⟩

def resumeDemoWorkout : Workout :=
  ⟨"", some 7, some 0, some 2, "Push Day", [⟨1, none, [⟨"135", "8-12", "12", true⟩]⟩],
   "old", some 42, some 42, some 500⟩

def resumeDemoRecord2 : HistoryRecord :=
  ⟨42, 500, some 7, some 0, 2, "Push Day", [⟨1, [⟨"135", "8-12", "12", true⟩]⟩], "old"⟩

def resumeDemoState : AppState := ⟨[], [], [], 1, [resumeDemoRecord2], none⟩

theorem finishWorkout_resume_overwrites_witness :
    (finishWorkout 900 901 resumeDemoWorkout [resumeDemoRecord] =
       (none, none, [resumeDemoRecord2])) ∧
    (resumeDemoRecord2.id = resumeDemoRecord.id ∧
     resumeDemoRecord2.date = resumeDemoRecord.date) ∧
    ([resumeDemoRecord2].filter (fun x => x.id = resumeDemoRecord.id) =
       [resumeDemoRecord2]) ∧
    (finishWorkoutState 902 903 (editHistoryWorkout resumeDemoRecord.id resumeDemoState) =
       (none, { resumeDemoState with activeWorkout := none })) :=
  finishWorkout_resume_overwrites 900 901 902 903 resumeDemoWorkout
    [] [] resumeDemoRecord resumeDemoRecord2 resumeDemoState
    rfl (by decide)
    (fun x hx => absurd hx (List.not_mem_nil x))
    (fun x hx => absurd hx (List.not_mem_nil x))
    ⟨_, List.mem_singleton.mpr rfl, _, List.mem_singleton.mpr rfl, rfl⟩
    rfl rfl

/-- The materialization rule in the CLAIM's words, for comparison with the
source's `materializeEntry`: restSeconds is the entry's rest override when
present, else the catalog's default rest for that exercise, else 90; one
logging set per target set with weight and reps empty, completed false,
targetReps copied from the template's rep spec. -/
def claimEntryToSession (catalog : List Exercise) (ex : TemplateEntry) : SessionExercise :=
  { exerciseId := ex.exerciseId
    restTime := some (match ex.restTime with
      | some r => r
      | none =>
        match catalog.find? (fun e => e.id = ex.exerciseId) with
        | some e => e.restTime
        | none => 90)
    sets := match ex.sets with
      | some ss => ss.map (fun s => ⟨"", s.reps, "", false⟩)
      | none => [] }

theorem materializeEntry_eq_claim (catalog : List Exercise) (ex : TemplateEntry)
    (hcat : ∀ e ∈ catalog, e.restTime ≠ 0) :
    materializeEntry catalog ex = claimEntryToSession catalog ex := by
  unfold materializeEntry claimEntryToSession
  refine congrArg₂ (fun a b => SessionExercise.mk ex.exerciseId a b) ?_ ?_
  · cases ex.restTime with
    | some r => rfl
    | none =>
      unfold getRestTimeForExercise
      cases hf : catalog.find? (fun e => e.id = ex.exerciseId) with
      | none => rfl
      | some e =>
        have he : e ∈ catalog := List.mem_of_find?_eq_some hf
        simp [hcat e he]
  · cases ex.sets with
    | none => rfl
    | some ss =>
      simp only []
      exact List.map_congr_left (fun s _ => by rw [jsOrStr_empty])

/-- Claim C4: instantiating a session from a program workout or a
standalone template produces, for each template entry in order, a session
exercise materialized exactly as the claim states (`claimEntryToSession`):
restSeconds is the entry's override when present, else the catalog's
default rest, else 90, and one logging set per target set with empty
weight/reps, `completed = false` and targetReps copied from the rep spec.
The hypothesis that catalog rest times are non-zero holds for every catalog
this code builds (seeded literals 60-180; `saveExercise` stores
`parseInt(...) || 90`). -/
theorem startWorkout_materialization
    (s : AppState) (programId idx sid : Nat) (p : Program)
    (t u : WorkoutTemplate)
    (hcat : ∀ e ∈ s.exercises, e.restTime ≠ 0)
    (hp : s.programs.find? (fun q => q.id = programId) = some p)
    (ht : p.workouts[idx]? = some t)
    (hu : s.standaloneWorkouts.find? (fun w0 => w0.id = some sid) = some u) :
    ((startProgramWorkout true programId idx s).activeWorkout.map Workout.exercises =
       some (t.exercises.map (claimEntryToSession s.exercises))) ∧
    ((startStandaloneWorkout true sid s).activeWorkout.map Workout.exercises =
       some (u.exercises.map (claimEntryToSession s.exercises))) := by
  have hfun : (t.exercises.map (materializeEntry s.exercises) =
      t.exercises.map (claimEntryToSession s.exercises)) :=
    List.map_congr_left (fun e _ => materializeEntry_eq_claim s.exercises e hcat)
  have hfun2 : (u.exercises.map (materializeEntry s.exercises) =
      u.exercises.map (claimEntryToSession s.exercises)) :=
    List.map_congr_left (fun e _ => materializeEntry_eq_claim s.exercises e hcat)
  constructor
  · unfold startProgramWorkout
    rw [if_neg (by simp)]
    rw [hp]
    dsimp only
    rw [ht]
    dsimp only [Option.map_some']
    rw [hfun]
  · unfold startStandaloneWorkout
    rw [if_neg (by simp)]
    rw [hu]
    dsimp only [Option.map_some']
    rw [hfun2]

def demoCatalog : List Exercise := [⟨1, "Barbell Bench Press", "Chest", 120⟩]

def demoTemplate : WorkoutTemplate :=
  ⟨none, "Push Day", [⟨1, none, some [⟨"8-12"⟩, ⟨"8-12"⟩, ⟨"8-12"⟩]⟩]⟩

def demoStandalone : WorkoutTemplate := ⟨some 9, "Solo Push", [⟨1, some 60, some [⟨"5"⟩]⟩]⟩

def demoProgram : Program := ⟨5, "PPL", 4, [demoTemplate]⟩

def materializeDemoState : AppState :=
  ⟨demoCatalog, [demoProgram], [demoStandalone], 1, [], none⟩

theorem startWorkout_materialization_witness :
    ((startProgramWorkout true 5 0 materializeDemoState).activeWorkout.map Workout.exercises =
       some (demoTemplate.exercises.map (claimEntryToSession demoCatalog))) ∧
    ((startStandaloneWorkout true 9 materializeDemoState).activeWorkout.map Workout.exercises =
       some (demoStandalone.exercises.map (claimEntryToSession demoCatalog))) :=
  startWorkout_materialization materializeDemoState 5 0 9 demoProgram demoTemplate demoStandalone
    (by intro e he; rw [List.mem_singleton.mp he]; decide) rfl rfl rfl

/-- Claim C5: toggling an uncompleted set (false→true) starts the rest
timer with duration exactly the exercise's resolved rest seconds (session
exercise's restSeconds if present, else the catalog default, else 90);
toggling a completed set back (true→false) leaves the rest-timer state
entirely untouched. -/
theorem toggleSetComplete_timer (catalog : List Exercise) (i j : Nat)
    (w : Workout) (ts : TimerSys) (ex : SessionExercise) (st : SetLog)
    (hex : w.exercises[i]? = some ex) (hst : ex.sets[j]? = some st) :
    (st.completed = false →
       (toggleSetComplete catalog i j w ts).2 =
         startRestTimer (resolvedRestSeconds catalog ex) ts) ∧
    (st.completed = true → (toggleSetComplete catalog i j w ts).2 = ts) := by
  unfold toggleSetComplete
  rw [hex]
  dsimp only
  rw [hst]
  dsimp only
  constructor
  · intro hc
    rw [hc]
    simp
  · intro hc
    rw [hc]
    simp

/-- C5 witness session: one exercise (rest 100s), set 0 uncompleted,
set 1 completed. -/
def toggleDemoWorkout : Workout :=
  ⟨"program", some 7, some 0, some 1, "Push Day",
   [⟨1, some 100, [⟨"", "8-12", "", false⟩, ⟨"95", "8-12", "8", true⟩]⟩],
   "", none, none, none⟩

theorem toggleSetComplete_timer_witness :
    ((toggleSetComplete demoCatalog 0 0 toggleDemoWorkout TimerSys.idle).2 =
       startRestTimer 100 TimerSys.idle) ∧
    ((toggleSetComplete demoCatalog 0 1 toggleDemoWorkout TimerSys.idle).2 =
       TimerSys.idle) :=
  ⟨(toggleSetComplete_timer demoCatalog 0 0 toggleDemoWorkout TimerSys.idle _ _
      rfl rfl).1 rfl,
   (toggleSetComplete_timer demoCatalog 0 1 toggleDemoWorkout TimerSys.idle _ _
      rfl rfl).2 rfl⟩

/-- The UI entry points that mutate the open session's set values
(`updateActiveSet`, `toggleSetComplete`, `addSetToActive`,
`script.js:1081-1114`). -/
inductive SessionOp where
  | update : Nat → Nat → SetField → String → SessionOp
  | toggle : Nat → Nat → SessionOp
  | addSet : Nat → SessionOp
  deriving Repr, DecidableEq

/-- Dispatch of a session mutation on the application state plus the timer
world, as the handlers do on `state.activeWorkout` (no-op without an open
session, which the UI prevents). -/
def applySessionOp (op : SessionOp) (p : AppState × TimerSys) : AppState × TimerSys :=
  match p.1.activeWorkout with
  | none => p
  | some w =>
    match op with
    | .update i j f v =>
      ({ p.1 with activeWorkout := some (updateActiveSet i j f v w) }, p.2)
    | .toggle i j =>
      let r := toggleSetComplete p.1.exercises i j w p.2
      ({ p.1 with activeWorkout := some r.1 }, r.2)
    | .addSet i =>
      ({ p.1 with activeWorkout := some (addSetToActive i w) }, p.2)

theorem applySessionOp_preserves_templates (op : SessionOp) (p : AppState × TimerSys) :
    (applySessionOp op p).1.programs = p.1.programs ∧
    (applySessionOp op p).1.standaloneWorkouts = p.1.standaloneWorkouts := by
  unfold applySessionOp
  cases p.1.activeWorkout with
  | none => exact ⟨rfl, rfl⟩
  | some w => cases op <;> exact ⟨rfl, rfl⟩

theorem applySessionOps_preserves_templates (ops : List SessionOp) (p : AppState × TimerSys) :
    (ops.foldl (fun q op => applySessionOp op q) p).1.programs = p.1.programs ∧
    (ops.foldl (fun q op => applySessionOp op q) p).1.standaloneWorkouts =
      p.1.standaloneWorkouts := by
  induction ops generalizing p with
  | nil => exact ⟨rfl, rfl⟩
  | cons op ops ih =>
    simp only [List.foldl_cons]
    rcases ih (applySessionOp op p) with ⟨h1, h2⟩
    rcases applySessionOp_preserves_templates op p with ⟨g1, g2⟩
    exact ⟨h1.trans g1, h2.trans g2⟩

theorem startWorkout_preserves_templates (confirm : Bool) (programId idx sid : Nat)
    (s : AppState) :
    (startProgramWorkout confirm programId idx s).programs = s.programs ∧
    (startProgramWorkout confirm programId idx s).standaloneWorkouts = s.standaloneWorkouts ∧
    (startStandaloneWorkout confirm sid s).programs = s.programs ∧
    (startStandaloneWorkout confirm sid s).standaloneWorkouts = s.standaloneWorkouts := by
  unfold startProgramWorkout startStandaloneWorkout
  refine ⟨?_, ?_, ?_, ?_⟩ <;>
    · split
      · rfl
      · split <;> first | rfl | (split <;> rfl)

/-- Claim C7: instantiating a session from a program or standalone
template never mutates the template: after instantiation and after any
sequence of set-value mutations on the session (weight/reps updates,
completion toggles, set additions), the program store and the standalone
template store — and hence every template's exercise entries and rep
specs — are unchanged. (The source builds the session by `map` over the
template with fresh object literals, `script.js:877-886`, which is what
licenses the copy-by-value embedding.) -/
theorem templates_immutable_under_session_mutations
    (s : AppState) (confirm : Bool) (programId idx sid : Nat)
    (ops : List SessionOp) (ts : TimerSys) :
    ((ops.foldl (fun q op => applySessionOp op q)
        (startProgramWorkout confirm programId idx s, ts)).1.programs = s.programs) ∧
    ((ops.foldl (fun q op => applySessionOp op q)
        (startProgramWorkout confirm programId idx s, ts)).1.standaloneWorkouts =
      s.standaloneWorkouts) ∧
    ((ops.foldl (fun q op => applySessionOp op q)
        (startStandaloneWorkout confirm sid s, ts)).1.programs = s.programs) ∧
    ((ops.foldl (fun q op => applySessionOp op q)
        (startStandaloneWorkout confirm sid s, ts)).1.standaloneWorkouts =
      s.standaloneWorkouts) := by
  rcases applySessionOps_preserves_templates ops (startProgramWorkout confirm programId idx s, ts)
    with ⟨h1, h2⟩
  rcases applySessionOps_preserves_templates ops (startStandaloneWorkout confirm sid s, ts)
    with ⟨h3, h4⟩
  rcases startWorkout_preserves_templates confirm programId idx sid s with ⟨g1, g2, g3, g4⟩
  exact ⟨h1.trans g1, h2.trans g2, h3.trans g3, h4.trans g4⟩

/-- The numeric value of a set's weight string ('Number(s.weight)', defined
when the weight is not NaN). -/
def weightVal (s : SetLog) : ℚ := (jsNumber s.weight).getD 0

theorem jsNumGt_eq_val (a b : String)
    (ha : (jsNumber a).isSome) (hb : (jsNumber b).isSome) :
    jsNumGt a b = decide ((jsNumber b).getD 0 < (jsNumber a).getD 0) := by
  unfold jsNumGt
  rcases Option.isSome_iff_exists.mp ha with ⟨x, hx⟩
  rcases Option.isSome_iff_exists.mp hb with ⟨y, hy⟩
  rw [hx, hy]
  simp

theorem jsNumGt_irrefl (a : String) : jsNumGt a a = false := by
  unfold jsNumGt
  cases jsNumber a with
  | none => rfl
  | some x => simp

theorem foldBest_spec (l : List SetLog) (acc : SetLog)
    (hacc : (jsNumber acc.weight).isSome)
    (hl : ∀ s ∈ l, (jsNumber s.weight).isSome) :
    (l.foldl (fun mx cur => if jsNumGt cur.weight mx.weight then cur else mx) acc = acc ∧
       ∀ s ∈ l, weightVal s ≤ weightVal acc) ∨
    (∃ pre post,
       l = pre ++ (l.foldl (fun mx cur => if jsNumGt cur.weight mx.weight then cur else mx) acc) :: post ∧
       weightVal acc <
         weightVal (l.foldl (fun mx cur => if jsNumGt cur.weight mx.weight then cur else mx) acc) ∧
       (∀ s ∈ pre, weightVal s <
         weightVal (l.foldl (fun mx cur => if jsNumGt cur.weight mx.weight then cur else mx) acc)) ∧
       (∀ s ∈ post, weightVal s ≤
         weightVal (l.foldl (fun mx cur => if jsNumGt cur.weight mx.weight then cur else mx) acc))) := by
  induction l generalizing acc with
  | nil => exact Or.inl ⟨rfl, fun s hs => absurd hs (List.not_mem_nil s)⟩
  | cons x xs ih =>
    have hx : (jsNumber x.weight).isSome := hl x (List.mem_cons_self x xs)
    have hxs : ∀ s ∈ xs, (jsNumber s.weight).isSome :=
      fun s hs => hl s (List.mem_cons_of_mem x hs)
    simp only [List.foldl_cons]
    by_cases hgt : jsNumGt x.weight acc.weight = true
    · have hlt : weightVal acc < weightVal x := by
        have := jsNumGt_eq_val x.weight acc.weight hx hacc
        rw [this] at hgt
        exact of_decide_eq_true hgt
      rw [if_pos hgt]
      rcases ih x hx hxs with ⟨heq, hle⟩ | ⟨pre, post, hsplit, hacc', hpre, hpost⟩
      · rw [heq]
        refine Or.inr ⟨[], xs, rfl, hlt, ?_, ?_⟩
        · intro s hs; exact absurd hs (List.not_mem_nil s)
        · exact hle
      · refine Or.inr ⟨x :: pre, post, ?_, lt_trans hlt hacc', ?_, hpost⟩
        · rw [List.cons_append, ← hsplit]
        · intro s hs
          rcases List.mem_cons.mp hs with rfl | hs
          · exact hacc'
          · exact hpre s hs
    · have hxle : weightVal x ≤ weightVal acc := by
        have := jsNumGt_eq_val x.weight acc.weight hx hacc
        rw [this] at hgt
        exact le_of_not_lt (of_decide_eq_false (Bool.not_eq_true _ ▸ (by simpa using hgt)))
      rw [if_neg hgt]
      rcases ih acc hacc hxs with ⟨heq, hle⟩ | ⟨pre, post, hsplit, hacc', hpre, hpost⟩
      · rw [heq]
        refine Or.inl ⟨rfl, ?_⟩
        intro s hs
        rcases List.mem_cons.mp hs with rfl | hs
        · exact hxle
        · exact hle s hs
      · refine Or.inr ⟨x :: pre, post, ?_, hacc', ?_, hpost⟩
        · rw [List.cons_append, ← hsplit]
        · intro s hs
          rcases List.mem_cons.mp hs with rfl | hs
          · exact lt_of_le_of_lt hxle hacc'
          · exact hpre s hs

theorem bestSetOf_spec (sets : List SetLog) (hne : sets ≠ [])
    (hall : ∀ s ∈ sets, (jsNumber s.weight).isSome) :
    ∃ b pre post, bestSetOf sets = some b ∧ sets = pre ++ b :: post ∧
      (∀ s ∈ pre, weightVal s < weightVal b) ∧
      (∀ s ∈ sets, weightVal s ≤ weightVal b) := by
  match sets, hne with
  | s0 :: rest, _ =>
    have hs0 : (jsNumber s0.weight).isSome := hall s0 (List.mem_cons_self s0 rest)
    have hrest : ∀ s ∈ rest, (jsNumber s.weight).isSome :=
      fun s hs => hall s (List.mem_cons_of_mem s0 hs)
    unfold bestSetOf
    simp only [List.foldl_cons, jsNumGt_irrefl]
    rw [if_neg (by simp)]
    rcases foldBest_spec rest s0 hs0 hrest with ⟨heq, hle⟩ | ⟨pre, post, hsplit, hacc, hpre, hpost⟩
    · rw [heq]
      refine ⟨s0, [], rest, rfl, rfl, fun s hs => absurd hs (List.not_mem_nil s), ?_⟩
      intro s hs
      rcases List.mem_cons.mp hs with rfl | hs
      · exact le_refl _
      · exact hle s hs
    · refine ⟨_, s0 :: pre, post, rfl, ?_, ?_, ?_⟩
      · rw [List.cons_append, ← hsplit]
      · intro s hs
        rcases List.mem_cons.mp hs with rfl | hs
        · exact hacc
        · exact hpre s hs
      · intro s hs
        rcases List.mem_cons.mp hs with rfl | hs
        · exact le_of_lt hacc
        · rw [hsplit] at hs
          rcases List.mem_append.mp hs with hs | hs
          · exact le_of_lt (hpre s hs)
          · rcases List.mem_cons.mp hs with rfl | hs
            · exact le_refl _
            · exact hpost s hs

theorem mostRecent_go (ms : List (Nat × List SetLog)) (a : Nat × List SetLog) :
    ∃ m, (ms.foldl (fun acc x =>
        match acc with
        | none => some x
        | some m0 => if x.1 > m0.1 then some x else acc) (some a)) = some m ∧
      (m = a ∨ m ∈ ms) ∧ a.1 ≤ m.1 ∧ ∀ m' ∈ ms, m'.1 ≤ m.1 := by
  induction ms generalizing a with
  | nil =>
    exact ⟨a, rfl, Or.inl rfl, le_refl _, fun m' hm' => absurd hm' (List.not_mem_nil m')⟩
  | cons x xs ih =>
    simp only [List.foldl_cons]
    by_cases hgt : x.1 > a.1
    · rw [if_pos hgt]
      rcases ih x with ⟨m, heq, hmem, hax, hall⟩
      refine ⟨m, heq, ?_, le_trans (le_of_lt hgt) hax, ?_⟩
      · rcases hmem with rfl | hm
        · exact Or.inr (List.mem_cons_self m xs)
        · exact Or.inr (List.mem_cons_of_mem x hm)
      · intro m' hm'
        rcases List.mem_cons.mp hm' with rfl | hm'
        · exact hax
        · exact hall m' hm'
    · rw [if_neg hgt]
      rcases ih a with ⟨m, heq, hmem, hax, hall⟩
      refine ⟨m, heq, ?_, hax, ?_⟩
      · rcases hmem with rfl | hm
        · exact Or.inl rfl
        · exact Or.inr (List.mem_cons_of_mem x hm)
      · intro m' hm'
        rcases List.mem_cons.mp hm' with rfl | hm'
        · exact le_trans (le_of_not_lt hgt) hax
        · exact hall m' hm'

theorem mostRecent_spec (ms : List (Nat × List SetLog)) (hne : ms ≠ []) :
    ∃ m, mostRecent ms = some m ∧ m ∈ ms ∧ ∀ m' ∈ ms, m'.1 ≤ m.1 := by
  match ms, hne with
  | x :: xs, _ =>
    unfold mostRecent
    simp only [List.foldl_cons]
    rcases mostRecent_go xs x with ⟨m, heq, hmem, hax, hall⟩
    refine ⟨m, heq, ?_, ?_⟩
    · rcases hmem with rfl | hm
      · exact List.mem_cons_self m xs
      · exact List.mem_cons_of_mem x hm
    · intro m' hm'
      rcases List.mem_cons.mp hm' with rfl | hm'
      · exact hax
      · exact hall m' hm'

theorem mem_exerciseMatches (hist : List HistoryRecord) (eid : Nat)
    (m : Nat × List SetLog) (hm : m ∈ exerciseMatches hist eid) :
    ∃ r ∈ hist, ∃ e ∈ r.exercises, e.exerciseId = eid ∧ m = (r.date, e.sets) := by
  unfold exerciseMatches at hm
  rcases List.mem_filterMap.mp hm with ⟨r, hr, hmap⟩
  cases hf : r.exercises.find? (fun e0 => e0.exerciseId = eid) with
  | none => rw [hf] at hmap; exact absurd hmap (by simp)
  | some e =>
    rw [hf] at hmap
    simp only [Option.map_some', Option.some.injEq] at hmap
    refine ⟨r, hr, e, List.mem_of_find?_eq_some hf, ?_, hmap.symm⟩
    have := List.find?_some hf
    simpa using this

theorem exerciseMatches_ne_nil (hist : List HistoryRecord) (eid : Nat)
    (h : ∃ r ∈ hist, ∃ e ∈ r.exercises, e.exerciseId = eid) :
    exerciseMatches hist eid ≠ [] := by
  rcases h with ⟨r, hr, e, he, heid⟩
  have hsome : (r.exercises.find? (fun e0 => e0.exerciseId = eid)).isSome :=
    List.find?_isSome.mpr ⟨e, he, by simp [heid]⟩
  rcases Option.isSome_iff_exists.mp hsome with ⟨e0, hf⟩
  have hmem : (r.date, e0.sets) ∈ exerciseMatches hist eid := by
    unfold exerciseMatches
    exact List.mem_filterMap.mpr ⟨r, hr, by rw [hf]; rfl⟩
  intro hnil
  rw [hnil] at hmem
  exact absurd hmem (List.not_mem_nil _)

theorem exerciseMatches_nil (hist : List HistoryRecord) (eid : Nat)
    (h : ∀ r ∈ hist, ∀ e ∈ r.exercises, e.exerciseId ≠ eid) :
    exerciseMatches hist eid = [] := by
  unfold exerciseMatches
  rw [List.filterMap_eq_nil_iff]
  intro r hr
  rw [List.find?_eq_none.mpr (fun e he => by simp [h r hr e he])]
  rfl

/-- Claim C9: `getLastExercisePerformance` returns no data when the
exercise appears in no history record; otherwise it returns the
maximum-weight set (weights compared numerically, ties resolved in favor of
the first-encountered set: every set strictly before the returned one has a
strictly smaller weight) of a most recent matching record by date. The
hypotheses — every history exercise entry has at least one set, and every
stored weight parses as a number — hold for every record `finishWorkout`
writes. -/
theorem getLastExercisePerformance_spec (hist : List HistoryRecord) (eid : Nat)
    (hsets : ∀ r ∈ hist, ∀ e ∈ r.exercises, e.sets ≠ [])
    (hnum : ∀ r ∈ hist, ∀ e ∈ r.exercises, ∀ s ∈ e.sets, (jsNumber s.weight).isSome) :
    ((∀ r ∈ hist, ∀ e ∈ r.exercises, e.exerciseId ≠ eid) →
        getLastExercisePerformance hist eid = none) ∧
    ((∃ r ∈ hist, ∃ e ∈ r.exercises, e.exerciseId = eid) →
        ∃ m ∈ exerciseMatches hist eid,
          (∀ m' ∈ exerciseMatches hist eid, m'.1 ≤ m.1) ∧
          (∃ r ∈ hist, ∃ e ∈ r.exercises, e.exerciseId = eid ∧ m = (r.date, e.sets)) ∧
          ∃ b pre post,
            m.2 = pre ++ b :: post ∧
            (∀ s ∈ pre, weightVal s < weightVal b) ∧
            (∀ s ∈ m.2, weightVal s ≤ weightVal b) ∧
            getLastExercisePerformance hist eid = some (b.weight, b.reps)) := by
  constructor
  · intro h
    unfold getLastExercisePerformance
    rw [exerciseMatches_nil hist eid h]
    rfl
  · intro h
    have hne := exerciseMatches_ne_nil hist eid h
    rcases mostRecent_spec (exerciseMatches hist eid) hne with ⟨m, hmr, hmem, hmax⟩
    rcases mem_exerciseMatches hist eid m hmem with ⟨r, hr, e, he, heid, hme⟩
    have hmsets : m.2 = e.sets := by rw [hme]
    have hne2 : m.2 ≠ [] := by rw [hmsets]; exact hsets r hr e he
    have hall2 : ∀ s ∈ m.2, (jsNumber s.weight).isSome := by
      rw [hmsets]; exact hnum r hr e he
    rcases bestSetOf_spec m.2 hne2 hall2 with ⟨b, pre, post, hbs, hsplit, hpre, hle⟩
    refine ⟨m, hmem, hmax, ⟨r, hr, e, he, heid, hme⟩, b, pre, post, hsplit, hpre, hle, ?_⟩
    unfold getLastExercisePerformance
    rw [hmr]
    dsimp only
    rw [hbs]

/-- C9 witness history: exercise 1 appears in two records; the later record
(date 200) has two sets tied at weight "90". -/
def perfDemoHist : List HistoryRecord :=
  [⟨10, 100, none, none, 1, "A", [⟨1, [⟨"100", "", "8", true⟩, ⟨"135", "", "5", true⟩]⟩], ""⟩,
   ⟨11, 200, none, none, 1, "B", [⟨1, [⟨"90", "", "9", true⟩, ⟨"90", "", "3", true⟩]⟩], ""⟩]

theorem getLastExercisePerformance_spec_witness :
    ∃ m ∈ exerciseMatches perfDemoHist 1,
      (∀ m' ∈ exerciseMatches perfDemoHist 1, m'.1 ≤ m.1) ∧
      (∃ r ∈ perfDemoHist, ∃ e ∈ r.exercises, e.exerciseId = 1 ∧ m = (r.date, e.sets)) ∧
      ∃ b pre post,
        m.2 = pre ++ b :: post ∧
        (∀ s ∈ pre, weightVal s < weightVal b) ∧
        (∀ s ∈ m.2, weightVal s ≤ weightVal b) ∧
        getLastExercisePerformance perfDemoHist 1 = some (b.weight, b.reps) :=
  (getLastExercisePerformance_spec perfDemoHist 1
    (by
      intro r hr e he
      rcases List.mem_cons.mp hr with rfl | hr
      · rw [List.mem_singleton.mp he]; decide
      · rcases List.mem_cons.mp hr with rfl | hr
        · rw [List.mem_singleton.mp he]; decide
        · exact absurd hr (List.not_mem_nil r))
    (by
      intro r hr e he s hs
      rcases List.mem_cons.mp hr with rfl | hr
      · rw [List.mem_singleton.mp he] at hs
        rcases List.mem_cons.mp hs with rfl | hs
        · decide
        · rw [List.mem_singleton.mp hs]; decide
      · rcases List.mem_cons.mp hr with rfl | hr
        · rw [List.mem_singleton.mp he] at hs
          rcases List.mem_cons.mp hs with rfl | hs
          · decide
          · rw [List.mem_singleton.mp hs]; decide
        · exact absurd hr (List.not_mem_nil r))).2
    ⟨_, List.mem_cons_self _ _, _, List.mem_singleton.mpr rfl, rfl⟩
